import Mathlib

/-!
Verification of the umu-launcher delta-patch core (src/lib.rs).

The Rust source exposes five operations over an already-open file descriptor:
`bspatch_rs`, `bz2_decompress_rs`, `crc32_rs`, `crc32_mmap_rs` and
`ssh_verify_rs`.  We embed them shallowly: a file is its byte content
(`List Nat`, each byte `< 256`) together with an `isOpen` flag recording
whether the caller's descriptor is still open; fallible OS calls
(`metadata`, `set_len`, `map_mut`, `unchecked_advise_range`, `read_to_end`)
are made explicit through environment records whose fields give the outcome
of each call; external crate behaviour (the qbsdiff BSDIFF 4.x patcher, the
bzip2 decoder, the ssh-key verifier) is modelled from the spec where noted.

A crucial point of fidelity: in the Rust source the `File` value obtained
from `File::from_raw_fd` closes the underlying descriptor when dropped, and
`std::mem::forget(file)` is only reached on some paths.  Every `?` operator
that fires while such a `File` value is still live therefore closes the
caller's descriptor; the embedding threads this through the `isOpen` flag.
-/

/-- Error kinds mirroring the `io::ErrorKind` values used in lib.rs. -/
inductive ErrKind where
  | other
  | invalidInput
  | invalidData
  deriving DecidableEq

/-- An `io::Error`: a kind plus a message. -/
structure IoErr where
  kind : ErrKind
  msg : String
  deriving DecidableEq

/-- The caller's open file: its byte content and whether the caller's
descriptor is still open (the Rust code must never close it). -/
structure FdFile where
  content : List Nat
  isOpen : Bool
  deriving DecidableEq

/-- Reflected CRC-32 step for one byte (polynomial 0xEDB88320), the
algorithm computed by the `crc32fast::Hasher` used in lib.rs. -/
def crc32Byte (crc b : Nat) : Nat :=
  (List.range 8).foldl (fun c _ => if c % 2 = 1 then (c / 2) ^^^ 0xEDB88320 else c / 2)
    (crc ^^^ (b % 256))

/-- CRC-32 of a byte sequence: fold from 0xFFFFFFFF, final complement,
exactly `Hasher::new` / `update` / `finalize` over the bytes. -/
def crc32 (bs : List Nat) : Nat :=
  (bs.foldl crc32Byte 0xFFFFFFFF) ^^^ 0xFFFFFFFF

/-- Outcome of the `read_to_end` call in `crc32_rs`. -/
structure ReadEnv where
  readErr : Option IoErr
  deriving DecidableEq

/-- Outcome of the `Mmap::map` call in `crc32_mmap_rs`. -/
structure MmapEnv where
  mmapOk : Bool
  deriving DecidableEq

/-- Embedding of `crc32_rs` (lib.rs lines 92-104): read the whole file into a
buffer, fold it through the hasher.  On a read failure the `?` fires before
`std::mem::forget(file)`, so the `File` is dropped and the caller's
descriptor is closed. -/
def crc32_rs (env : ReadEnv) (fs : FdFile) : Except IoErr Nat × FdFile :=
  match env.readErr with
  | some e => (.error e, { fs with isOpen := false })
  | none => (.ok (crc32 fs.content), fs)

/-- Embedding of `crc32_mmap_rs` (lib.rs lines 106-120): map the file
read-only and hash the mapped bytes; if mapping fails (`.ok()` turns the
error into `None`) the hasher is finalized over zero bytes.  No `?` occurs,
so `std::mem::forget(file)` always runs and the descriptor stays open. -/
def crc32_mmap_rs (env : MmapEnv) (fs : FdFile) : Nat × FdFile :=
  if env.mmapOk then (crc32 fs.content, fs) else (crc32 [], fs)

/-- One BSDIFF 4.x control record: add `addLen` bytes (delta bytes summed
with source bytes at the source cursor), copy `copyLen` literal bytes from
the extra block, then move the source cursor by `seekLen`. -/
structure CtrlEntry where
  addLen : Nat
  copyLen : Nat
  seekLen : Int
  deriving DecidableEq

/-- Modelled from the spec: the parsed form of a BSDIFF 4.x patch payload as
consumed by the external `qbsdiff::Bspatch` crate — a target-size hint from
the header (`hint_target_size`, advisory only) plus the control records and
the delta and extra data blocks (spec section 6: control records are
copy-length/insert-length/seek-offset triples followed by literal-insert and
checksum-delta blocks). -/
structure Patch where
  hint : Nat
  ctrl : List CtrlEntry
  delta : List Nat
  extra : List Nat
  deriving DecidableEq

/-- One byte of an add chunk: delta byte plus the source byte at the cursor
when the cursor is in bounds (out-of-range source reads contribute zero),
reduced mod 256. -/
def addByte (src : List Nat) (oldpos : Int) (i : Nat) (d : Nat) : Nat :=
  let j : Int := oldpos + i
  let s := if 0 ≤ j ∧ j < (src.length : Int) then src.getD j.toNat 0 else 0
  (d + s) % 256

/-- The add chunk produced by one control record. -/
def addChunk (src : List Nat) (oldpos : Int) (ds : List Nat) : List Nat :=
  (List.range ds.length).map fun i => addByte src oldpos i (ds.getD i 0)

/-- Modelled from the spec: application of the control stream against the
source bytes (the `qbsdiff` apply loop).  The target is the concatenation of
each record's add chunk and literal copy; a record that over-runs the delta
or extra block is a malformed patch and fails. -/
def applyCtrls (src : List Nat) :
    List CtrlEntry → Int → List Nat → List Nat → Option (List Nat)
  | [], _, _, _ => some []
  | c :: rest, oldpos, delta, extra =>
    if c.addLen ≤ delta.length ∧ c.copyLen ≤ extra.length then
      match applyCtrls src rest (oldpos + (c.addLen : Int) + c.seekLen)
          (delta.drop c.addLen) (extra.drop c.copyLen) with
      | some tail => some (addChunk src oldpos (delta.take c.addLen) ++ extra.take c.copyLen ++ tail)
      | none => none
    else none

/-- Modelled from the spec: `Bspatch::apply` over a source byte sequence;
the true target length is whatever the control stream produces, independent
of the header hint. -/
def applyPatch (p : Patch) (src : List Nat) : Option (List Nat) :=
  applyCtrls src p.ctrl 0 p.delta p.extra

/-- Outcomes of the fallible OS calls made by `bspatch_rs`, in source order:
`file.metadata()`, the growth `file.set_len(hint_target_size())`,
`MmapMut::map_mut`, the shrink `file.set_len(target.len())`, and
`unchecked_advise_range`. -/
structure OsEnv where
  metaErr : Option IoErr
  growErr : Option IoErr
  mmapErr : Option IoErr
  truncErr : Option IoErr
  adviseErr : Option IoErr
  deriving DecidableEq

/-- File content after the pre-growth step (lib.rs lines 33-35): if the
original length is below the hint, `set_len` extends with zero bytes;
otherwise the content is untouched. -/
def grownContent (fs : FdFile) (p : Patch) : List Nat :=
  if fs.content.length < p.hint then
    fs.content ++ List.replicate (p.hint - fs.content.length) 0
  else fs.content

/-- Embedding of the body of `bspatch_rs` after patch parsing (lib.rs lines
29-75), one step per source line:
metadata (`?` closes the fd on failure, the `File` not yet forgotten);
conditional growth to the hint (`?` likewise closes);
`map_mut` (error wrapped as Other "Failed to map source: ...", `?` closes);
`mem::forget(file)` — from here the descriptor survives errors unless a
second `File` is formed;
`patcher.apply` over the first `original_size` bytes of the mapping;
the target-vs-mapping length validation (InvalidInput, nothing written);
the copy of the target into the mapping;
and the small-file branch, which re-forms a `File` from the raw fd, so its
`set_len`/advise `?`s again close the descriptor, truncates to the target
length and advises; on the other branch only the advise hint runs. -/
def bspatchCore (env : OsEnv) (fs : FdFile) (p : Patch) :
    Except IoErr (List Nat) × FdFile :=
  match env.metaErr with
  | some e => (.error e, { fs with isOpen := false })
  | none =>
    match (if fs.content.length < p.hint then env.growErr else none) with
    | some e => (.error e, { fs with isOpen := false })
    | none =>
      match env.mmapErr with
      | some e =>
          (.error ⟨ErrKind.other, "Failed to map source: " ++ e.msg⟩,
           { content := grownContent fs p, isOpen := false })
      | none =>
        match applyPatch p ((grownContent fs p).take fs.content.length) with
        | none =>
            (.error ⟨ErrKind.other, "patch apply failed"⟩,
             { content := grownContent fs p, isOpen := fs.isOpen })
        | some target =>
          if target.length > (grownContent fs p).length then
            (.error ⟨ErrKind.invalidInput, "Patch exceeds mapped file size"⟩,
             { content := grownContent fs p, isOpen := fs.isOpen })
          else
            if target.length < fs.content.length then
              match env.truncErr with
              | some e =>
                  (.error e,
                   { content := target ++ (grownContent fs p).drop target.length,
                     isOpen := false })
              | none =>
                match env.adviseErr with
                | some e =>
                    (.error e,
                     { content := (target ++ (grownContent fs p).drop target.length).take target.length,
                       isOpen := false })
                | none =>
                    (.ok target,
                     { content := (target ++ (grownContent fs p).drop target.length).take target.length,
                       isOpen := fs.isOpen })
            else
              match env.adviseErr with
              | some e =>
                  (.error e,
                   { content := target ++ (grownContent fs p).drop target.length,
                     isOpen := fs.isOpen })
              | none =>
                  (.ok target,
                   { content := target ++ (grownContent fs p).drop target.length,
                     isOpen := fs.isOpen })

/-- Embedding of `bspatch_rs` (lib.rs lines 19-77): `Bspatch::new(patch)?`
runs before any file operation, so a parse failure returns with the file
untouched; the parse itself is the external qbsdiff header/bzip2 decode and
is abstracted as a function argument. -/
def bspatch_rs (parse : List Nat → Option Patch) (env : OsEnv) (fs : FdFile)
    (patch : List Nat) : Except IoErr (List Nat) × FdFile :=
  match parse patch with
  | none => (.error ⟨ErrKind.other, "invalid patch"⟩, fs)
  | some p => bspatchCore env fs p

/-- The environment in which every OS call succeeds. -/
def allOkEnv : OsEnv := ⟨none, none, none, none, none⟩

/-- Modelled from the spec: the byte stream yielded by the external
`BzDecoder` over a compressed source — the decompressed bytes it produces,
followed either by clean end-of-stream (`errAfter = none`) or by a decode
error (malformed or truncated container). -/
structure BzSource where
  bytes : List Nat
  errAfter : Option IoErr
  deriving DecidableEq

/-- Outcome of the `file.set_len(size)` call in `bz2_decompress_rs`. -/
structure BzEnv where
  setLenErr : Option IoErr
  deriving DecidableEq

/-- Embedding of `bz2_decompress_rs` (lib.rs lines 79-90): `set_len(size)`
first (its `?` fires while the `File` is live, closing the descriptor on
failure), then `io::copy` streams every decoded byte into the file from its
start; the copy's result is captured, `mem::forget` runs, and the result is
returned — so a decode error surfaces after the partial write without
closing the descriptor, and no comparison against `size` is ever made. -/
def bz2_decompress_rs (env : BzEnv) (fs : FdFile) (src : BzSource) (size : Nat) :
    Except IoErr Nat × FdFile :=
  match env.setLenErr with
  | some e => (.error e, { fs with isOpen := false })
  | none =>
    match src.errAfter with
    | some e =>
        (.error e,
         { content := src.bytes ++
             (fs.content.take size ++ List.replicate (size - fs.content.length) 0).drop src.bytes.length,
           isOpen := fs.isOpen })
    | none =>
        (.ok src.bytes.length,
         { content := src.bytes ++
             (fs.content.take size ++ List.replicate (size - fs.content.length) 0).drop src.bytes.length,
           isOpen := fs.isOpen })

/-- Required parameter to create/verify digital signatures (lib.rs line 13). -/
def NAMESPACE : String := "umu.openwinecomponents.org"

/-- Modelled from the spec: a parsed SSHSIG detached-signature envelope in a
symbolic cryptography model — the envelope records the namespace it was
created under, the exact message it signs, the identity of the signing key,
and whether the envelope is intact (an attacker cannot forge a signature
that verifies, so validity is exactly agreement of these fields). -/
structure SshSig where
  sigNamespace : String
  signedMessage : List Nat
  signerKey : Nat
  intact : Bool
  deriving DecidableEq

/-- Modelled from the spec: `PublicKey::verify(namespace, message, sig)` of
the ssh-key crate — true exactly when the envelope is intact, was produced
by the matching private key, and signs this very namespace and message. -/
def sshVerify (key : Nat) (ns : String) (message : List Nat) (sig : SshSig) : Bool :=
  sig.intact && sig.signerKey == key && sig.sigNamespace == ns && sig.signedMessage == message

/-- Embedding of `ssh_verify_rs` (lib.rs lines 122-135): parse the public
key, parse the PEM envelope, then verify under the fixed `NAMESPACE`; each
failure is reported as an error value, never a crash.  The two external
parsers are abstracted as function arguments. -/
def ssh_verify_rs (parseKey : String → Option Nat) (parsePem : List Nat → Option SshSig)
    (source : String) (message : List Nat) (pem : List Nat) : Except IoErr Unit :=
  match parseKey source with
  | none => .error ⟨ErrKind.other, "key parse error"⟩
  | some key =>
    match parsePem pem with
    | none => .error ⟨ErrKind.other, "signature parse error"⟩
    | some sig =>
      if sshVerify key NAMESPACE message sig then .ok ()
      else .error ⟨ErrKind.invalidData, "signature verification failed"⟩

/-- Lowercase hexadecimal digit for a value below 16 (byte codes of the
characters 0-9 and a-f). -/
def hexDigitLower (n : Nat) : Nat := if n < 10 then 48 + n else 87 + n

/-- Lowercase hexadecimal encoding of a byte sequence, two digits per byte. -/
def hexEncode : List Nat → List Nat
  | [] => []
  | b :: bs => hexDigitLower (b / 16) :: hexDigitLower (b % 16) :: hexEncode bs

/-- Value of a lowercase hexadecimal digit character code. -/
def unhexDigit (c : Nat) : Nat := if c < 58 then c - 48 else c - 87

/-- Decoder of `hexEncode`, used to show the encoding is injective. -/
def hexDecode : List Nat → List Nat
  | a :: b :: rest => (16 * unhexDigit a + unhexDigit b) :: hexDecode rest
  | _ => []

/-- Modelled from the spec: `is_trusted_key` of the Root-of-Trust Registry
(section 4.4/4.5; this operation is not part of src/lib.rs) — compute a
fixed-size cryptographic digest over the raw key-text bytes, hex-encode it
in lowercase, and test membership in the compiled-in set of allowed
digests.  The digest function is abstract (collision resistance is
idealised as injectivity in the theorems about it). -/
def is_trusted_key (digest : List Nat → List Nat) (registry : List (List Nat))
    (keyText : List Nat) : Bool :=
  registry.contains (hexEncode (digest keyText))

/-- The identity function used as a concrete injective digest in witnesses. -/
def identityDigest : List Nat → List Nat := fun bs => bs

/-- C7: for every file content, the buffered checksum (`crc32_rs`, read
succeeding) and the mapped checksum (`crc32_mmap_rs`, mapping succeeding)
return the same 32-bit value. -/
theorem crc32_buffered_eq_mapped (fs : FdFile) :
    (crc32_rs ⟨none⟩ fs).1 = .ok (crc32_mmap_rs ⟨true⟩ fs).1 := rfl

/-- C3 fails on the code: when the read inside `crc32_rs` fails, the `?`
operator drops the `File` created by `File::from_raw_fd` before
`std::mem::forget(file)` is reached, closing the caller's descriptor —
contrary to the source's own comment that the descriptor is managed by the
caller and the destructor must not run. -/
theorem crc32_rs_read_error_closes_fd :
    crc32_rs ⟨some ⟨ErrKind.other, "read failed"⟩⟩ ⟨[1, 2, 3], true⟩ =
      (.error ⟨ErrKind.other, "read failed"⟩, ⟨[1, 2, 3], false⟩) := rfl

/-- The pre-growth step never disturbs the original bytes: they are exactly
the first `original_size` bytes of the grown content. -/
theorem grownContent_take (fs : FdFile) (p : Patch) :
    (grownContent fs p).take fs.content.length = fs.content := by
  unfold grownContent
  split
  · exact List.take_left _ _
  · exact List.take_length _

/-- Length of the file after the pre-growth step. -/
theorem grownContent_length (fs : FdFile) (p : Patch) :
    (grownContent fs p).length = max fs.content.length p.hint := by
  unfold grownContent
  split <;> simp <;> omega

/-- C10: a patch payload that fails to parse makes `bspatch_rs` return the
parse error before any operation on the file: the file is not resized, no
mapping is created, and content, length and descriptor are unchanged. -/
theorem bspatch_rs_parse_error (parse : List Nat → Option Patch) (env : OsEnv)
    (fs : FdFile) (patch : List Nat) (h : parse patch = none) :
    bspatch_rs parse env fs patch = (.error ⟨ErrKind.other, "invalid patch"⟩, fs) := by
  unfold bspatch_rs
  rw [h]

/-- Witness for C10 at a concrete file and payload. -/
theorem bspatch_rs_parse_error_witness :
    bspatch_rs (fun _ => none) allOkEnv ⟨[3, 1], true⟩ [0, 1, 2] =
      (.error ⟨ErrKind.other, "invalid patch"⟩, ⟨[3, 1], true⟩) :=
  bspatch_rs_parse_error (fun _ => none) allOkEnv ⟨[3, 1], true⟩ [0, 1, 2] rfl

/-- C1 amended: on success the file's final length equals the produced
target length `T` exactly when `T` is smaller than the original length `L`;
otherwise it equals `max L H` where `H` is the payload's target-size hint —
so for `L ≤ T < H` the final length is the hint `H`, not `T` (the code only
truncates in the `T < L` branch and never undoes the pre-growth to `H`). -/
theorem bspatch_final_length (env : OsEnv) (fs : FdFile) (p : Patch)
    (out : List Nat) (fs' : FdFile)
    (h : bspatchCore env fs p = (.ok out, fs')) :
    fs'.content.length =
      if out.length < fs.content.length then out.length
      else max fs.content.length p.hint := by
  unfold bspatchCore at h
  cases hme : env.metaErr with
  | some e => simp only [hme] at h; simp at h
  | none =>
  simp only [hme] at h
  cases hg : (if fs.content.length < p.hint then env.growErr else none) with
  | some e => simp only [hg] at h; simp at h
  | none =>
  simp only [hg] at h
  cases hm : env.mmapErr with
  | some e => simp only [hm] at h; simp at h
  | none =>
  simp only [hm] at h
  cases ha : applyPatch p ((grownContent fs p).take fs.content.length) with
  | none => simp only [ha] at h; simp at h
  | some target =>
  simp only [ha] at h
  by_cases hgt : target.length > (grownContent fs p).length
  · simp only [if_pos hgt] at h; simp at h
  · simp only [if_neg hgt] at h
    by_cases hlt : target.length < fs.content.length
    · simp only [if_pos hlt] at h
      cases ht : env.truncErr with
      | some e => simp only [ht] at h; simp at h
      | none =>
      simp only [ht] at h
      cases hadv : env.adviseErr with
      | some e => simp only [hadv] at h; simp at h
      | none =>
      simp only [hadv] at h
      simp only [Prod.mk.injEq, Except.ok.injEq] at h
      obtain ⟨hout, hfs⟩ := h
      subst hout
      subst hfs
      rw [if_pos hlt]
      simp [List.length_take, List.length_append, List.length_drop]
    · simp only [if_neg hlt] at h
      cases hadv : env.adviseErr with
      | some e => simp only [hadv] at h; simp at h
      | none =>
      simp only [hadv] at h
      simp only [Prod.mk.injEq, Except.ok.injEq] at h
      obtain ⟨hout, hfs⟩ := h
      subst hout
      subst hfs
      rw [if_neg hlt]
      simp only [List.length_append, List.length_drop]
      rw [← grownContent_length fs p]
      omega

/-- Witness for C1 amended at a concrete run with L = 2, H = 4, T = 3. -/
theorem bspatch_final_length_witness :
    ([7, 8, 9, 0] : List Nat).length =
      if ([7, 8, 9] : List Nat).length < ([5, 6] : List Nat).length
      then ([7, 8, 9] : List Nat).length
      else max ([5, 6] : List Nat).length 4 :=
  bspatch_final_length allOkEnv ⟨[5, 6], true⟩ ⟨4, [⟨0, 3, 0⟩], [], [7, 8, 9]⟩
    [7, 8, 9] ⟨[7, 8, 9, 0], true⟩ rfl

/-- C1 as stated fails on the code: with original length L = 2, hint H = 4
and a patch whose application produces T = 3 bytes (so L ≤ T < H), the call
succeeds but the file's final length is 4 — the size hint — not 3, the
actual output length: the code truncates only in the T < L branch and never
undoes the pre-growth to H. -/
theorem bspatch_final_length_ctrex :
    bspatchCore allOkEnv ⟨[5, 6], true⟩ ⟨4, [⟨0, 3, 0⟩], [], [7, 8, 9]⟩ =
      (.ok [7, 8, 9], ⟨[7, 8, 9, 0], true⟩) ∧
    (⟨[7, 8, 9, 0], true⟩ : FdFile).content.length ≠ ([7, 8, 9] : List Nat).length :=
  ⟨rfl, by decide⟩

/-- C2 amended: the size validation and every step before the copy are
mutation-free — if application fails the mapped content is exactly the grown
content (original bytes plus zero padding), and if the produced target
exceeds the mapped length the call returns the InvalidInput data-integrity
error with the mapping untouched; the original bytes are the untouched
prefix in both cases.  (After the copy, however, a truncate or advise
failure returns an error with the mapping already mutated.) -/
theorem bspatch_no_overwrite_before_copy (env : OsEnv) (fs : FdFile) (p : Patch)
    (h1 : env.metaErr = none) (h2 : env.growErr = none) (h3 : env.mmapErr = none) :
    (applyPatch p ((grownContent fs p).take fs.content.length) = none →
      (bspatchCore env fs p).2.content = grownContent fs p) ∧
    (∀ target, applyPatch p ((grownContent fs p).take fs.content.length) = some target →
      target.length > (grownContent fs p).length →
      bspatchCore env fs p =
        (.error ⟨ErrKind.invalidInput, "Patch exceeds mapped file size"⟩,
         ⟨grownContent fs p, fs.isOpen⟩)) ∧
    (grownContent fs p).take fs.content.length = fs.content := by
  refine ⟨?_, ?_, grownContent_take fs p⟩
  · intro ha
    unfold bspatchCore
    simp only [h1, h2, h3, ha, ite_self]
  · intro target ha hgt
    unfold bspatchCore
    simp only [h1, h2, h3, ha, ite_self, if_pos hgt]

/-- Witness for C2 amended: a target of 2 bytes against a 1-byte mapping is
rejected as InvalidInput with the file content untouched. -/
theorem bspatch_no_overwrite_before_copy_witness :
    bspatchCore allOkEnv ⟨[1], true⟩ ⟨0, [⟨0, 2, 0⟩], [], [9, 9]⟩ =
      (.error ⟨ErrKind.invalidInput, "Patch exceeds mapped file size"⟩, ⟨[1], true⟩) :=
  (bspatch_no_overwrite_before_copy allOkEnv ⟨[1], true⟩ ⟨0, [⟨0, 2, 0⟩], [], [9, 9]⟩
    rfl rfl rfl).2.1 [9, 9] rfl (by decide)

/-- C2 as stated fails on the code: when the advise hint fails after the
copy, the call returns an error although the target had been produced and
the mapped bytes were already overwritten ([1, 2] has become [9, 9]). -/
theorem bspatch_error_after_copy_ctrex :
    bspatchCore ⟨none, none, none, none, some ⟨ErrKind.other, "advise failed"⟩⟩
        ⟨[1, 2], true⟩ ⟨2, [⟨0, 2, 0⟩], [], [9, 9]⟩ =
      (.error ⟨ErrKind.other, "advise failed"⟩, ⟨[9, 9], true⟩) ∧
    ([9, 9] : List Nat) ≠ [1, 2] := ⟨rfl, by decide⟩

/-- C8 amended: an empty-operation patch is accepted, not an error, but it
produces the empty target (T = 0): the returned sequence is empty and the
file is left truncated to length 0 — a byte-for-byte no-op only when the
original file was already empty. -/
theorem bspatch_empty_patch (env : OsEnv) (fs : FdFile)
    (h1 : env.metaErr = none) (h2 : env.growErr = none) (h3 : env.mmapErr = none)
    (h4 : env.truncErr = none) (h5 : env.adviseErr = none) :
    bspatchCore env fs ⟨0, [], [], []⟩ = (.ok [], ⟨[], fs.isOpen⟩) := by
  unfold bspatchCore
  simp only [h1, h2, h3, h4, h5, ite_self, applyPatch, applyCtrls]
  simp only [grownContent, Nat.not_lt_zero, if_false]
  rw [if_neg (by simp)]
  by_cases hL : ([] : List Nat).length < fs.content.length
  · rw [if_pos hL]
    simp
  · rw [if_neg hL]
    have hnil : fs.content = [] := by
      simp only [List.length_nil] at hL
      exact List.length_eq_zero.mp (Nat.eq_zero_of_not_pos hL)
    simp [hnil]

/-- Witness for C8 amended at a concrete one-byte file. -/
theorem bspatch_empty_patch_witness :
    bspatchCore allOkEnv ⟨[7], true⟩ ⟨0, [], [], []⟩ = (.ok [], ⟨[], true⟩) :=
  bspatch_empty_patch allOkEnv ⟨[7], true⟩ rfl rfl rfl rfl rfl

/-- C8 as stated fails on the code: the empty-operation patch applied to a
file containing [1, 2, 3] succeeds but returns the empty sequence and
truncates the file to length 0 — not a no-op on the content. -/
theorem bspatch_empty_patch_ctrex :
    bspatchCore allOkEnv ⟨[1, 2, 3], true⟩ ⟨0, [], [], []⟩ = (.ok [], ⟨[], true⟩) ∧
    ([] : List Nat) ≠ [1, 2, 3] := ⟨rfl, by decide⟩

/-- C9 amended: a failure of the OS page-advice step is fatal — whenever
parsing, application and the copy succeed but `unchecked_advise_range`
fails, its error is propagated by `?` and the call returns it. -/
theorem bspatch_advise_error_fatal (env : OsEnv) (fs : FdFile) (p : Patch)
    (target : List Nat) (e : IoErr)
    (h1 : env.metaErr = none) (h2 : env.growErr = none) (h3 : env.mmapErr = none)
    (h4 : env.truncErr = none) (h5 : env.adviseErr = some e)
    (ha : applyPatch p ((grownContent fs p).take fs.content.length) = some target)
    (hlen : target.length ≤ (grownContent fs p).length) :
    (bspatchCore env fs p).1 = .error e := by
  unfold bspatchCore
  simp only [h1, h2, h3, h4, h5, ha, ite_self]
  rw [if_neg (Nat.not_lt.mpr hlen)]
  by_cases hlt : target.length < fs.content.length
  · rw [if_pos hlt]
  · rw [if_neg hlt]

/-- Witness for C9 amended at a concrete run whose only failing OS call is
the advise hint. -/
theorem bspatch_advise_error_fatal_witness :
    (bspatchCore ⟨none, none, none, none, some ⟨ErrKind.other, "advise failed w"⟩⟩
        ⟨[4], true⟩ ⟨1, [⟨0, 1, 0⟩], [], [8]⟩).1 =
      .error ⟨ErrKind.other, "advise failed w"⟩ :=
  bspatch_advise_error_fatal ⟨none, none, none, none, some ⟨ErrKind.other, "advise failed w"⟩⟩
    ⟨[4], true⟩ ⟨1, [⟨0, 1, 0⟩], [], [8]⟩ [8] ⟨ErrKind.other, "advise failed w"⟩
    rfl rfl rfl rfl rfl rfl (by decide)

/-- C9 as stated fails on the code: parsing, patch application and the copy
into the mapping all succeed and only the advice hint fails, yet the call
returns that error instead of ignoring it. -/
theorem bspatch_advise_error_ctrex :
    bspatchCore ⟨none, none, none, none, some ⟨ErrKind.other, "advise error"⟩⟩
        ⟨[1], true⟩ ⟨1, [⟨0, 1, 0⟩], [], [9]⟩ =
      (.error ⟨ErrKind.other, "advise error"⟩, ⟨[9], true⟩) := rfl

/-- C4: `ssh_verify_rs` succeeds exactly when the key text and the envelope
both parse and the signature is valid over this very message under the fixed
namespace — so a signature created under a different namespace, a signature
over a different message, a corrupted envelope and a malformed key text each
yield an error result (never a crash, the function is total). -/
theorem ssh_verify_rs_ok_iff (parseKey : String → Option Nat)
    (parsePem : List Nat → Option SshSig) (source : String)
    (message : List Nat) (pem : List Nat) :
    ssh_verify_rs parseKey parsePem source message pem = .ok () ↔
      ∃ key sig, parseKey source = some key ∧ parsePem pem = some sig ∧
        sig.intact = true ∧ sig.signerKey = key ∧
        sig.sigNamespace = NAMESPACE ∧ sig.signedMessage = message := by
  unfold ssh_verify_rs
  cases hk : parseKey source with
  | none => simp
  | some key =>
    cases hs : parsePem pem with
    | none => simp
    | some sig =>
      simp only [Option.some.injEq]
      split
      next hv =>
        simp only [sshVerify, Bool.and_eq_true, beq_iff_eq] at hv
        constructor
        · intro _
          exact ⟨key, sig, rfl, rfl, hv.1.1.1, hv.1.1.2, hv.1.2, hv.2⟩
        · intro _
          rfl
      next hv =>
        simp only [sshVerify, Bool.and_eq_true, beq_iff_eq] at hv
        constructor
        · intro h
          exact absurd h (by simp)
        · rintro ⟨k2, s2, hk2, hs2, hi, hsk, hns, hm⟩
          cases hk2
          cases hs2
          exact absurd ⟨⟨⟨hi, hsk⟩, hns⟩, hm⟩ hv

/-- Decoding a lowercase hexadecimal digit returns the encoded value. -/
theorem unhexDigit_hexDigitLower (n : Nat) : unhexDigit (hexDigitLower n) = n := by
  unfold hexDigitLower
  by_cases h : n < 10
  · rw [if_pos h]
    unfold unhexDigit
    rw [if_pos (by omega)]
    omega
  · rw [if_neg h]
    unfold unhexDigit
    rw [if_neg (by omega)]
    omega

/-- `hexDecode` is a left inverse of `hexEncode`. -/
theorem hexDecode_hexEncode (bs : List Nat) : hexDecode (hexEncode bs) = bs := by
  induction bs with
  | nil => rfl
  | cons b bs ih =>
    simp only [hexEncode, hexDecode, unhexDigit_hexDigitLower, ih, Nat.div_add_mod]

/-- Lowercase hexadecimal encoding is injective. -/
theorem hexEncode_injective : Function.Injective hexEncode := by
  intro a b h
  rw [← hexDecode_hexEncode a, ← hexDecode_hexEncode b, h]

/-- Setting a list element inside the bounds makes that element the read
value. -/
theorem getD_set_self (l : List Nat) (i : Nat) (b : Nat) (h : i < l.length) :
    (l.set i b).getD i 0 = b := by
  induction l generalizing i with
  | nil => exact absurd h (Nat.not_lt_zero _)
  | cons x xs ih =>
    cases i with
    | zero => rfl
    | succ j => exact ih j (Nat.lt_of_succ_lt_succ h)

/-- C5 amended: with an injective (collision-free) digest and the singleton
compiled-in registry, any single-byte mutation that changes a byte of an
ACCEPTED key text makes `is_trusted_key` return false; the universal claim
over every key text fails, because mutating a rejected text can produce the
trusted key itself. -/
theorem is_trusted_key_mutation (digest : List Nat → List Nat)
    (t k : List Nat) (i b : Nat)
    (hinj : ∀ a a', digest a = digest a' → a = a')
    (htrue : is_trusted_key digest [hexEncode (digest t)] k = true)
    (hi : i < k.length) (hb : b ≠ k.getD i 0) :
    is_trusted_key digest [hexEncode (digest t)] (k.set i b) = false := by
  by_contra hcon
  have htrue2 : is_trusted_key digest [hexEncode (digest t)] (k.set i b) = true := by
    cases hx : is_trusted_key digest [hexEncode (digest t)] (k.set i b)
    · exact absurd hx hcon
    · rfl
  have h1 : hexEncode (digest k) = hexEncode (digest t) := by
    simpa [is_trusted_key] using htrue
  have h2 : hexEncode (digest (k.set i b)) = hexEncode (digest t) := by
    simpa [is_trusted_key] using htrue2
  have hset : k.set i b = k :=
    hinj _ _ ((hexEncode_injective h2).trans (hexEncode_injective h1).symm)
  have hgot := getD_set_self k i b hi
  rw [hset] at hgot
  exact hb hgot.symm

/-- Witness for C5 amended: the trusted key text [1] is accepted, and
mutating its byte makes the check fail. -/
theorem is_trusted_key_mutation_witness :
    is_trusted_key identityDigest [hexEncode (identityDigest [1])]
      (([1] : List Nat).set 0 2) = false :=
  is_trusted_key_mutation identityDigest [1] [1] 0 2 (fun _ _ h => h)
    (by decide) (by decide) (by decide)

/-- C5 as stated fails: the key text [2] is rejected, yet mutating its
single byte to 1 yields the trusted key text itself, so that single-byte
mutation flips the result to true rather than false. -/
theorem is_trusted_key_mutation_ctrex :
    (([2] : List Nat).set 0 1 ≠ [2]) ∧
    is_trusted_key identityDigest [hexEncode (identityDigest [1])]
      (([2] : List Nat).set 0 1) = true ∧
    is_trusted_key identityDigest [hexEncode (identityDigest [1])] [2] = false := by
  decide

/-- C6 amended: when the compressed stream decodes cleanly and the resize
succeeds, `bz2_decompress_rs` succeeds and returns the count `D` of
decompressed bytes with no comparison against `final_size`; the file ends at
length `max final_size D` — for `final_size < D` the call still succeeds,
returns `D ≠ final_size`, and the file is longer than `final_size`. -/
theorem bz2_success_no_size_check (fs : FdFile) (src : BzSource) (size : Nat)
    (h : src.errAfter = none) :
    bz2_decompress_rs ⟨none⟩ fs src size =
      (.ok src.bytes.length,
       ⟨src.bytes ++
          (fs.content.take size ++ List.replicate (size - fs.content.length) 0).drop
            src.bytes.length,
        fs.isOpen⟩) ∧
    (bz2_decompress_rs ⟨none⟩ fs src size).2.content.length = max size src.bytes.length := by
  constructor
  · unfold bz2_decompress_rs
    simp only [h]
  · unfold bz2_decompress_rs
    simp only [h]
    simp only [List.length_append, List.length_drop, List.length_take, List.length_replicate]
    omega

/-- Witness for C6 amended: final_size 1 against a stream decompressing to
3 bytes succeeds with count 3 and a 3-byte file. -/
theorem bz2_success_no_size_check_witness :
    bz2_decompress_rs ⟨none⟩ ⟨[], true⟩ ⟨[1, 2, 3], none⟩ 1 = (.ok 3, ⟨[1, 2, 3], true⟩) :=
  (bz2_success_no_size_check ⟨[], true⟩ ⟨[1, 2, 3], none⟩ 1 rfl).1

/-- C6 as stated fails on the code: a declared final_size of 1 with a stream
whose true decompressed length is 3 does not fail with an I/O error — the
call succeeds, reports 3 bytes written, and leaves a 3-byte file. -/
theorem bz2_size_mismatch_ctrex :
    bz2_decompress_rs ⟨none⟩ ⟨[], true⟩ ⟨[5, 6, 7], none⟩ 1 =
      (.ok 3, ⟨[5, 6, 7], true⟩) ∧ (3 : Nat) ≠ 1 := ⟨rfl, by decide⟩
